import Mathlib

attribute [local semireducible] Rat.add Rat.sub Rat.mul Rat.inv Rat.ofScientific

/-
Verification of the frame-evolution engine of the AudiVisual repository
(src/generative_animator.py), as a shallow embedding in Lean 4.

Modelling conventions:
- Python `float` arithmetic is modelled over `ℚ` (exact field arithmetic), and over `ℝ`
  where the source takes square roots (standard-deviation matching).
- Python `int` is modelled as `Int`; loop counters coming from `range` as `ℕ`.
- Images are modelled as operation traces (`Img`): each image-processing call of the
  source adds one constructor node, so "which operations were performed" is readable
  off the produced value.  Pixel-level arithmetic (frame blending during upsampling)
  is additionally modelled pointwise over `ℚ` where a claim is about pixel values.
- Python exceptions are modelled with `Except PyError`.
- Python object aliasing (mutation of a keyframe returned by reference from
  `_get_keyframe_at_frame`) is modelled by returning, next to the keyframe value, the
  index of the configuration-list entry the returned object aliases, and by writing
  mutations back to that index.
-/

/-- Errors raised by the modelled code paths.  `scheduleSyntaxError` is the error type
named by the specification; the source never defines or raises it, the constructor
exists only so that statements about it can be written down. -/
inductive PyError where
  | valueError : String → PyError
  | indexError : PyError
  | scheduleSyntaxError : String → PyError
  | exception : String → PyError
  deriving Repr, DecidableEq

/-- dataclass AnimationKeyframe of src/generative_animator.py, with its field defaults. -/
structure AnimationKeyframe where
  frame : Int
  prompt : String
  negative_prompt : String := ""
  strength : ℚ := 3/4
  seed : Int := -1
  zoom : ℚ := 1
  angle : ℚ := 0
  translation_x : ℚ := 0
  translation_y : ℚ := 0
  translation_z : ℚ := 0
  rotation_3d_x : ℚ := 0
  rotation_3d_y : ℚ := 0
  rotation_3d_z : ℚ := 0
  perspective_flip_theta : ℚ := 0
  perspective_flip_phi : ℚ := 0
  perspective_flip_gamma : ℚ := 0
  noise_schedule : String := "0:(0.02)"
  color_coherence : String := "Match Frame 0 LAB"
  diffusion_cadence : Int := 1
  optical_flow_cadence : String := "None"
  deriving Repr, DecidableEq

instance : Inhabited AnimationKeyframe := ⟨{ frame := 0, prompt := "" }⟩

deriving instance DecidableEq for Except

/-- GenerativeAnimator._lerp: linear interpolation a + (b - a) * t. -/
def lerp (a b t : ℚ) : ℚ := a + (b - a) * t

/-- Stable insertion of index `i` into an index list that is ordered by the frame
number of the indexed keyframe.  Equal keys keep their original relative order,
reproducing the stability of Python's `sorted`. -/
def insertByFrame (kfs : List AnimationKeyframe) (i : ℕ) : List ℕ → List ℕ
  | [] => [i]
  | j :: rest =>
    if (kfs.getD i default).frame < (kfs.getD j default).frame then i :: j :: rest
    else j :: insertByFrame kfs i rest

/-- Indices 0..n-1 of the keyframe list, stably sorted by keyframe frame number:
the `sorted(keyframes, key=lambda x: x.frame)` traversal order of
GenerativeAnimator._get_keyframe_at_frame, with each element named by its position
in the caller's list (its Python object identity). -/
def sortedIndices (kfs : List AnimationKeyframe) : List ℕ :=
  (List.range kfs.length).foldl (fun acc i => insertByFrame kfs i acc) []

/-- The before/after scan of GenerativeAnimator._get_keyframe_at_frame:
`before` is the last keyframe (in sorted order) with frame <= frame_idx, `after` the
first with frame > frame_idx.  Results are indices into the caller's list. -/
def scanKeyframeIdx (frame_idx : Int) (kfs : List AnimationKeyframe) : Option ℕ × Option ℕ :=
  (sortedIndices kfs).foldl
    (fun ba i =>
      (if (kfs.getD i default).frame ≤ frame_idx then some i else ba.1,
       if frame_idx < (kfs.getD i default).frame && ba.2.isNone then some i else ba.2))
    (none, none)

/-- GenerativeAnimator._get_keyframe_at_frame.  Returns the resolved keyframe together
with the index (into the caller's list) of the Python object the result aliases: the
source returns references into the caller's list in the `keyframes[0]` and
`return before` branches, and a freshly constructed object otherwise.  Note that the
constructor call in the interpolation branch passes no perspective-flip, noise,
coherence or cadence arguments, so those fields take the dataclass defaults there. -/
def get_keyframe_at_frame (frame_idx : Int) (keyframes : List AnimationKeyframe) :
    AnimationKeyframe × Option ℕ :=
  match keyframes with
  | [] => ({ frame := frame_idx, prompt := "" }, none)
  | _ :: _ =>
    match scanKeyframeIdx frame_idx keyframes with
    | (none, _) => (keyframes.getD 0 default, some 0)
    | (some bi, none) => (keyframes.getD bi default, some bi)
    | (some bi, some ai) =>
      let before := keyframes.getD bi default
      let after := keyframes.getD ai default
      let t : ℚ := ((frame_idx : ℚ) - (before.frame : ℚ)) / ((after.frame : ℚ) - (before.frame : ℚ))
      ({ frame := frame_idx
         prompt := if t < 1/2 then before.prompt else after.prompt
         negative_prompt := before.negative_prompt
         strength := lerp before.strength after.strength t
         seed := before.seed
         zoom := lerp before.zoom after.zoom t
         angle := lerp before.angle after.angle t
         translation_x := lerp before.translation_x after.translation_x t
         translation_y := lerp before.translation_y after.translation_y t
         translation_z := lerp before.translation_z after.translation_z t
         rotation_3d_x := lerp before.rotation_3d_x after.rotation_3d_x t
         rotation_3d_y := lerp before.rotation_3d_y after.rotation_3d_y t
         rotation_3d_z := lerp before.rotation_3d_z after.rotation_3d_z t }, none)

/-- Keyframe list used to exhibit the dropped perspective-flip fields: a keyframe at
frame 0 with a nonzero perspective_flip_theta, followed by a later keyframe. -/
def c3Keyframes : List AnimationKeyframe :=
  [{ frame := 0, prompt := "a", perspective_flip_theta := 1 },
   { frame := 10, prompt := "b" }]

/-- C3 counterexample: the keyframe list contains a keyframe whose frame equals the
queried index 0 and whose perspective_flip_theta is 1, yet interpolation at index 0
returns perspective_flip_theta = 0: the constructor call in the interpolation branch
does not pass the perspective-flip fields, so they are reset to their defaults
whenever a later keyframe exists.  Hence the result is not field-for-field equal to
the matching keyframe. -/
theorem C3_counterexample :
    (c3Keyframes.getD 0 default).frame = 0 ∧
    (c3Keyframes.getD 0 default).perspective_flip_theta = 1 ∧
    (get_keyframe_at_frame 0 c3Keyframes).1.perspective_flip_theta = 0 := by
  decide

/-- C3 amended: if a keyframe with frame equal to the queried index is resolved as
`before` and no keyframe has a larger frame, it is returned exactly (the very
object).  If a later keyframe exists, the interpolated result preserves prompt,
negative_prompt, seed, strength, zoom, angle, the translations and the 3D rotations
of the matching keyframe (t = 0), but the three perspective-flip angles and the
noise/coherence/cadence fields are reset to the dataclass defaults instead of being
copied. -/
theorem C3_amended (idx : Int) (kfs : List AnimationKeyframe) (bi : ℕ)
    (h1 : (scanKeyframeIdx idx kfs).1 = some bi)
    (hframe : (kfs.getD bi default).frame = idx) :
    ((scanKeyframeIdx idx kfs).2 = none →
        get_keyframe_at_frame idx kfs = (kfs.getD bi default, some bi)) ∧
    (∀ ai, (scanKeyframeIdx idx kfs).2 = some ai →
        get_keyframe_at_frame idx kfs =
          ({ kfs.getD bi default with
              frame := idx
              perspective_flip_theta := 0
              perspective_flip_phi := 0
              perspective_flip_gamma := 0
              noise_schedule := "0:(0.02)"
              color_coherence := "Match Frame 0 LAB"
              diffusion_cadence := 1
              optical_flow_cadence := "None" }, none)) := by
  cases kfs with
  | nil => simp [scanKeyframeIdx, sortedIndices] at h1
  | cons k rest =>
    constructor
    · intro h2
      have hscan : scanKeyframeIdx idx (k :: rest) = (some bi, none) := by
        rw [← Prod.mk.eta (p := scanKeyframeIdx idx (k :: rest)), h1, h2]
      simp only [get_keyframe_at_frame, hscan]
    · intro ai h2
      have hscan : scanKeyframeIdx idx (k :: rest) = (some bi, some ai) := by
        rw [← Prod.mk.eta (p := scanKeyframeIdx idx (k :: rest)), h1, h2]
      have ht : ((idx : ℚ) - (((k :: rest).getD bi default).frame : ℚ)) /
          ((((k :: rest).getD ai default).frame : ℚ) - (((k :: rest).getD bi default).frame : ℚ)) = 0 := by
        rw [hframe]; simp
      simp only [get_keyframe_at_frame, hscan, ht, lerp]
      norm_num

/-- C10: whenever the interpolation branch is taken (both a `before` and an `after`
keyframe exist around the queried index), the resulting keyframe's negative_prompt
and seed are taken verbatim from `before`; they are neither interpolated nor switched
to `after`'s values, regardless of t. -/
theorem C10_negative_prompt_seed_from_before (idx : Int) (kfs : List AnimationKeyframe)
    (bi ai : ℕ) (hscan : scanKeyframeIdx idx kfs = (some bi, some ai)) :
    (get_keyframe_at_frame idx kfs).1.negative_prompt = (kfs.getD bi default).negative_prompt ∧
    (get_keyframe_at_frame idx kfs).1.seed = (kfs.getD bi default).seed := by
  cases kfs with
  | nil => simp [scanKeyframeIdx, sortedIndices] at hscan
  | cons k rest => simp [get_keyframe_at_frame, hscan]

/-- Keyframe list for the C10 witness: two keyframes with distinct negative prompts
and seeds, queried at a frame with t = 0.7 >= 0.5 (prompt already switched). -/
def c10Keyframes : List AnimationKeyframe :=
  [{ frame := 0, prompt := "a", negative_prompt := "na", seed := 7 },
   { frame := 10, prompt := "b", negative_prompt := "nb", seed := 9 }]

/-- C10 witness: at frame 7 (t = 0.7) the prompt has switched to `after`'s, while
negative_prompt and seed still come from `before`. -/
theorem C10_witness :
    scanKeyframeIdx 7 c10Keyframes = (some 0, some 1) ∧
    (get_keyframe_at_frame 7 c10Keyframes).1.prompt = "b" ∧
    (get_keyframe_at_frame 7 c10Keyframes).1.negative_prompt = "na" ∧
    (get_keyframe_at_frame 7 c10Keyframes).1.seed = 7 := by
  refine ⟨by decide, by decide, ?_, ?_⟩
  · exact (C10_negative_prompt_seed_from_before 7 c10Keyframes 0 1 (by decide)).1
  · exact (C10_negative_prompt_seed_from_before 7 c10Keyframes 0 1 (by decide)).2

/-- Python str.strip() on a character list: remove leading and trailing whitespace. -/
def pyStrip (s : List Char) : List Char :=
  ((s.dropWhile Char.isWhitespace).reverse.dropWhile Char.isWhitespace).reverse

/-- Python str.strip(chars) on a character list: remove any leading and trailing
characters drawn from `cs`. -/
def pyStripChars (cs : List Char) (s : List Char) : List Char :=
  ((s.dropWhile (cs.contains ·)).reverse.dropWhile (cs.contains ·)).reverse

/-- Python str.split(sep) for a single-character separator: splitting the empty
string yields [""], like Python. -/
def splitOnChar (sep : Char) (s : List Char) : List (List Char) :=
  s.foldr
    (fun c acc =>
      match acc with
      | [] => [[c]]
      | g :: gs => if c = sep then [] :: g :: gs else (c :: g) :: gs)
    [[]]

/-- Value of a decimal digit sequence, most significant first. -/
def digitsToNat (ds : List Char) : ℕ :=
  ds.foldl (fun acc c => 10 * acc + (c.toNat - 48)) 0

/-- Python int(s): optional sign followed by a nonempty digit sequence, with
surrounding whitespace tolerated; anything else raises ValueError (None here). -/
def parsePyInt (s : List Char) : Option Int :=
  let t := pyStrip s
  match t with
  | '-' :: core =>
    if core ≠ [] ∧ core.all Char.isDigit then some (-(digitsToNat core : Int)) else none
  | '+' :: core =>
    if core ≠ [] ∧ core.all Char.isDigit then some (digitsToNat core : Int) else none
  | core =>
    if core ≠ [] ∧ core.all Char.isDigit then some (digitsToNat core : Int) else none

/-- Python float(s) restricted to plain decimal notation: optional sign, digits with
at most one point, at least one digit overall.  (Exponent, inf and nan forms accepted
by Python's float() are not modelled; no schedule in this repository uses them.)
Anything else raises ValueError (None here). -/
def parsePyFloat (s : List Char) : Option ℚ :=
  let t := pyStrip s
  let signAndCore : ℚ × List Char :=
    match t with
    | '-' :: core => (-1, core)
    | '+' :: core => (1, core)
    | core => (1, core)
  match splitOnChar '.' signAndCore.2 with
  | [ip] =>
    if ip ≠ [] ∧ ip.all Char.isDigit then some (signAndCore.1 * (digitsToNat ip : ℚ)) else none
  | [ip, fp] =>
    if (ip ≠ [] ∨ fp ≠ []) ∧ ip.all Char.isDigit ∧ fp.all Char.isDigit then
      some (signAndCore.1 * ((digitsToNat ip : ℚ) + (digitsToNat fp : ℚ) / ((10 ^ fp.length : ℕ) : ℚ)))
    else none
  | _ => none

/-- The point-collection loop of parse_schedule_string: for each comma token, a token
without a colon is silently skipped; a token with a colon is split on every colon
(more than one colon makes the two-name unpacking raise ValueError), its frame parsed
with int() and its value with float() after stripping "() " — either failure raises
ValueError.  The error value records the offending (stripped) token. -/
def parsePointsLoop : List (List Char) → List (Int × ℚ) → Except PyError (List (Int × ℚ))
  | [], points => .ok points
  | part :: rest, points =>
    let p := pyStrip part
    if p.contains ':' then
      match splitOnChar ':' p with
      | [frame_str, value_str] =>
        match parsePyInt frame_str, parsePyFloat (pyStripChars ['(', ')', ' '] value_str) with
        | some frame, some value => parsePointsLoop rest (points ++ [(frame, value)])
        | _, _ => .error (.valueError (String.mk p))
      | _ => .error (.valueError (String.mk p))
    else parsePointsLoop rest points

/-- The parsing phase of parse_schedule_string: split the schedule on commas and
collect (frame, value) control points in schedule order. -/
def parseSchedulePoints (schedule : String) : Except PyError (List (Int × ℚ)) :=
  parsePointsLoop (splitOnChar ',' schedule.data) []

/-- One step of the before/after scan of the evaluation loop of
parse_schedule_string: `before` is overwritten by any point with frame <= current
frame, `after` is set by the first point with frame > current frame. -/
def scheduleScanStep (frame : ℕ) (ba : Option (Int × ℚ) × Option (Int × ℚ))
    (fv : Int × ℚ) : Option (Int × ℚ) × Option (Int × ℚ) :=
  (if fv.1 ≤ (frame : Int) then some fv else ba.1,
   if (frame : Int) < fv.1 ∧ ba.2.isNone then some fv else ba.2)

/-- The before/after scan of the evaluation loop of parse_schedule_string: `before`
is the last point in list order with frame <= current frame, `after` the first in
list order with frame > current frame. -/
def scanSchedulePoints (points : List (Int × ℚ)) (frame : ℕ) :
    Option (Int × ℚ) × Option (Int × ℚ) :=
  points.foldl (scheduleScanStep frame) (none, none)

/-- One iteration of the evaluation loop of parse_schedule_string, for a nonempty
point list (the empty case raises IndexError and is handled by the caller): hold the
first point's value before all points, hold `before`'s value after all points,
otherwise interpolate linearly. -/
def evalSchedule (points : List (Int × ℚ)) (frame : ℕ) : ℚ :=
  match scanSchedulePoints points frame with
  | (none, _) => (points.headD (0, 0)).2
  | (some before, none) => before.2
  | (some before, some after) =>
    before.2 + (after.2 - before.2) *
      (((frame : ℚ) - (before.1 : ℚ)) / ((after.1 : ℚ) - (before.1 : ℚ)))

/-- parse_schedule_string of src/generative_animator.py.  Parsing failures propagate
from the point-collection loop; with no control points at all, the first evaluation
iteration hits `points[0]` and raises IndexError (so only `total_frames = 0` escapes);
otherwise every frame in [0, total_frames) is evaluated by interpolation. -/
def parse_schedule_string (schedule : String) (total_frames : ℕ) : Except PyError (List ℚ) :=
  match parseSchedulePoints schedule with
  | .error e => .error e
  | .ok points =>
    if points = [] ∧ 0 < total_frames then .error .indexError
    else .ok ((List.range total_frames).map (evalSchedule points))

/-- If every control point's frame exceeds the current frame, the scan never sets
`before`. -/
theorem scan_fst_of_all_gt (frame : ℕ) (ps : List (Int × ℚ))
    (h : ∀ p ∈ ps, (frame : Int) < p.1) :
    ∀ acc, (ps.foldl (scheduleScanStep frame) acc).1 = acc.1 := by
  induction ps with
  | nil => intro acc; rfl
  | cons p rest ih =>
    intro acc
    have hp : ¬ p.1 ≤ (frame : Int) := not_le.mpr (h p (by simp))
    rw [List.foldl_cons, ih (fun q hq => h q (by simp [hq]))]
    simp [scheduleScanStep, hp]

/-- If every control point's frame is at most the current frame, the scan sets
`before` to the last point in list order and never sets `after`. -/
theorem scan_of_all_le (frame : ℕ) :
    ∀ (ps : List (Int × ℚ)) (acc : Option (Int × ℚ) × Option (Int × ℚ)),
      (∀ p ∈ ps, p.1 ≤ (frame : Int)) → ps ≠ [] →
      (ps.foldl (scheduleScanStep frame) acc).1 = ps.getLast? ∧
      (ps.foldl (scheduleScanStep frame) acc).2 = acc.2
  | [], _, _, hne => absurd rfl hne
  | [p], acc, h, _ => by
    have hp := h p (by simp)
    simp [scheduleScanStep, hp, not_lt.mpr hp]
  | p :: q :: rest, acc, h, _ => by
    have hres := scan_of_all_le frame (q :: rest) (scheduleScanStep frame acc p)
      (fun r hr => h r (by simp at hr; simp [hr])) (by simp)
    rw [List.foldl_cons]
    constructor
    · rw [hres.1]; exact List.getLast?_cons_cons.symm
    · rw [hres.2]; simp [scheduleScanStep, not_lt.mpr (h p (by simp))]

/-- Before the first control point the scan leaves `before` unset. -/
theorem scanSchedulePoints_fst_none (frame : ℕ) (ps : List (Int × ℚ))
    (h : ∀ p ∈ ps, (frame : Int) < p.1) :
    (scanSchedulePoints ps frame).1 = none := by
  rw [scanSchedulePoints]
  exact scan_fst_of_all_gt frame ps h (none, none)

/-- After the last control point the scan sets `before` to the last listed point and
leaves `after` unset. -/
theorem scanSchedulePoints_after_none (frame : ℕ) (ps : List (Int × ℚ))
    (hne : ps ≠ []) (h : ∀ p ∈ ps, p.1 ≤ (frame : Int)) :
    scanSchedulePoints ps frame = (ps.getLast?, none) := by
  rw [scanSchedulePoints, ← Prod.mk.eta (p := ps.foldl (scheduleScanStep frame) (none, none))]
  obtain ⟨h1, h2⟩ := scan_of_all_le frame ps (none, none) h hne
  rw [h1, h2]

/-- Before the first control point the evaluation loop emits the first point's
value, held constant. -/
theorem evalSchedule_before_first (frame : ℕ) (ps : List (Int × ℚ))
    (h : ∀ p ∈ ps, (frame : Int) < p.1) :
    evalSchedule ps frame = (ps.headD (0, 0)).2 := by
  have h1 := scanSchedulePoints_fst_none frame ps h
  rw [evalSchedule, ← Prod.mk.eta (p := scanSchedulePoints ps frame), h1]

/-- After the last control point the evaluation loop emits the last point's value
(last in list order), held constant. -/
theorem evalSchedule_after_last (frame : ℕ) (ps : List (Int × ℚ))
    (hne : ps ≠ []) (h : ∀ p ∈ ps, p.1 ≤ (frame : Int)) :
    evalSchedule ps frame = ((ps.getLast?).getD (0, 0)).2 := by
  have h1 := scanSchedulePoints_after_none frame ps hne h
  obtain ⟨last, hlast⟩ : ∃ l, ps.getLast? = some l :=
    Option.isSome_iff_exists.mp (List.getLast?_isSome.mpr hne)
  rw [evalSchedule, h1, hlast]
  rfl

/-- Element f of the dense evaluation of `ps` over `total` frames. -/
theorem getD_map_range {α : Type*} (g : ℕ → α) (d : α) :
    ∀ (m n : ℕ), n < m → ((List.range m).map g).getD n d = g n := by
  intro m
  induction m with
  | zero => omega
  | succ m ih =>
    intro n h
    rw [List.range_succ, List.map_append]
    rcases Nat.lt_or_ge n m with h' | h'
    · rw [List.getD_append _ _ d n (by simpa using h')]
      exact ih n h'
    · have hnm : n = m := by omega
      subst hnm
      rw [List.getD_append_right _ _ d n (by simp)]
      simp

/-- C2: parsing "0:(1.0),10:(2.0)" over 11 frames gives 1.0 at frame 0, 2.0 at
frame 10 and exactly 1.5 at frame 5 (the full dense curve is 1 + f/10); and for
every parsed schedule with at least one control point, frames lying before every
control point take the first listed point's value and frames lying at or after every
control point take the last listed point's value, held constant. -/
theorem C2_schedule_parsing :
    parse_schedule_string "0:(1.0),10:(2.0)" 11 =
      .ok [1, 11/10, 6/5, 13/10, 7/5, 3/2, 8/5, 17/10, 9/5, 19/10, 2] ∧
    (∀ (s : String) (total : ℕ) (ps : List (Int × ℚ)) (vs : List ℚ) (f : ℕ),
      parseSchedulePoints s = .ok ps → ps ≠ [] →
      parse_schedule_string s total = .ok vs → f < total →
      ((∀ p ∈ ps, (f : Int) < p.1) → vs.getD f 0 = (ps.headD (0, 0)).2) ∧
      ((∀ p ∈ ps, p.1 ≤ (f : Int)) → vs.getD f 0 = ((ps.getLast?).getD (0, 0)).2)) := by
  constructor
  · decide
  · intro s total ps vs f hps hne hvs hf
    have hcond : ¬ (ps = [] ∧ 0 < total) := fun hc => hne hc.1
    simp only [parse_schedule_string, hps] at hvs
    rw [if_neg hcond] at hvs
    have hvs' : vs = (List.range total).map (evalSchedule ps) := (Except.ok.injEq _ _).mp hvs |>.symm
    subst hvs'
    rw [getD_map_range _ _ _ _ hf]
    exact ⟨fun h => evalSchedule_before_first f ps h, fun h => evalSchedule_after_last f ps hne h⟩

/-- C2 witness: for the one-point schedule "2:(3.0)" over 5 frames, frame 0 lies
before the only control point and frame 4 after it; both take the value 3. -/
theorem C2_witness :
    parse_schedule_string "2:(3.0)" 5 = .ok [3, 3, 3, 3, 3] ∧
    ([3, 3, 3, 3, 3] : List ℚ).getD 0 0 = (([((2 : Int), (3 : ℚ))].headD (0, 0)).2) ∧
    ([3, 3, 3, 3, 3] : List ℚ).getD 4 0 = ((([((2 : Int), (3 : ℚ))].getLast?).getD (0, 0)).2) := by
  refine ⟨by decide, ?_, ?_⟩
  · exact (C2_schedule_parsing.2 "2:(3.0)" 5 [(2, 3)] [3, 3, 3, 3, 3] 0
      (by decide) (by decide) (by decide) (by decide)).1 (by decide)
  · exact (C2_schedule_parsing.2 "2:(3.0)" 5 [(2, 3)] [3, 3, 3, 3, 3] 4
      (by decide) (by decide) (by decide) (by decide)).2 (by decide)

/-- C6 counterexample: the schedule string "abc,0:(1.0)" contains the malformed
token "abc" (no integer frame, not of frame:(value) shape), yet parsing does not
fail at all — tokens without a colon are silently skipped — so no error of any kind,
let alone a ScheduleSyntaxError, is raised. -/
theorem C6_counterexample :
    parse_schedule_string "abc,0:(1.0)" 1 = .ok [1] := by decide

/-- Every error produced by the point-collection loop is a builtin ValueError
carrying the offending stripped token. -/
theorem parsePointsLoop_error_shape (parts : List (List Char)) :
    ∀ (acc : List (Int × ℚ)) (e : PyError),
      parsePointsLoop parts acc = .error e → ∃ tok, e = .valueError tok := by
  induction parts with
  | nil => intro acc e h; simp [parsePointsLoop] at h
  | cons part rest ih =>
    intro acc e h
    rw [parsePointsLoop] at h
    split at h
    · split at h
      · split at h
        · exact ih _ _ h
        · obtain ⟨rfl⟩ := (Except.error.injEq _ _).mp h.symm
          exact ⟨_, rfl⟩
      · obtain ⟨rfl⟩ := (Except.error.injEq _ _).mp h.symm
        exact ⟨_, rfl⟩
    · exact ih _ _ h

/-- C6 amended: a colon-bearing token whose frame is not an integer, whose value is
not numeric, or which has extra colons makes the run fail at parse time, before any
per-frame evaluation, with a builtin ValueError identifying the offending token —
not with a ScheduleSyntaxError, which does not exist in the code; tokens without a
colon are silently skipped rather than rejected (see the counterexample). -/
theorem C6_amended (s : String) (total : ℕ) (e : PyError)
    (h : parseSchedulePoints s = .error e) :
    parse_schedule_string s total = .error e ∧ (∃ tok, e = .valueError tok) := by
  refine ⟨?_, parsePointsLoop_error_shape _ _ _ h⟩
  rw [parse_schedule_string, h]

/-- C6 witness: the schedule "x:(1.0)" has a non-integer frame; parsing fails with
ValueError naming the token, for any frame count. -/
theorem C6_witness :
    parse_schedule_string "x:(1.0)" 5 = .error (.valueError "x:(1.0)") ∧
    (∃ tok, (PyError.valueError "x:(1.0)") = .valueError tok) :=
  C6_amended "x:(1.0)" 5 (.valueError "x:(1.0)") (by decide)

/-- C3 witness: applying the amended theorem to the concrete two-keyframe list at
index 0 (which matches the first keyframe's frame while a later keyframe exists). -/
theorem C3_witness :
    get_keyframe_at_frame 0 c3Keyframes =
      ({ c3Keyframes.getD 0 default with
          frame := 0
          perspective_flip_theta := 0
          perspective_flip_phi := 0
          perspective_flip_gamma := 0
          noise_schedule := "0:(0.02)"
          color_coherence := "Match Frame 0 LAB"
          diffusion_cadence := 1
          optical_flow_cadence := "None" }, none) :=
  (C3_amended 0 c3Keyframes 0 (by decide) (by decide)).2 1 (by decide)

/-- The `if 'bass' in audio_params` block of GenerativeAnimator._apply_audio_reactivity:
scale zoom by (1 + bass * 0.2). -/
def applyBass (kf : AnimationKeyframe) (params : List (String × List ℚ)) (idx : ℕ) :
    AnimationKeyframe :=
  match params.lookup "bass" with
  | some arr => { kf with zoom := kf.zoom * (1 + arr.getD idx 0 * (1/5)) }
  | none => kf

/-- The `if 'treble' in audio_params` block: add treble * 45 degrees to angle. -/
def applyTreble (kf : AnimationKeyframe) (params : List (String × List ℚ)) (idx : ℕ) :
    AnimationKeyframe :=
  match params.lookup "treble" with
  | some arr => { kf with angle := kf.angle + arr.getD idx 0 * 45 }
  | none => kf

/-- The `if 'energy' in audio_params` block: override strength to 0.5 + energy * 0.5. -/
def applyEnergy (kf : AnimationKeyframe) (params : List (String × List ℚ)) (idx : ℕ) :
    AnimationKeyframe :=
  match params.lookup "energy" with
  | some arr => { kf with strength := 1/2 + arr.getD idx 0 * (1/2) }
  | none => kf

/-- GenerativeAnimator._apply_audio_reactivity: the three feature blocks applied in
source order (bass, then treble, then energy); the audio feature series are an
association list from feature name to per-frame values. -/
def apply_audio_reactivity (keyframe : AnimationKeyframe)
    (audio_params : List (String × List ℚ)) (frame_idx : ℕ) : AnimationKeyframe :=
  applyEnergy (applyTreble (applyBass keyframe audio_params frame_idx) audio_params frame_idx)
    audio_params frame_idx

theorem applyTreble_zoom (kf : AnimationKeyframe) (params : List (String × List ℚ)) (idx : ℕ) :
    (applyTreble kf params idx).zoom = kf.zoom := by
  unfold applyTreble; cases params.lookup "treble" <;> rfl

theorem applyEnergy_zoom (kf : AnimationKeyframe) (params : List (String × List ℚ)) (idx : ℕ) :
    (applyEnergy kf params idx).zoom = kf.zoom := by
  unfold applyEnergy; cases params.lookup "energy" <;> rfl

theorem applyBass_angle (kf : AnimationKeyframe) (params : List (String × List ℚ)) (idx : ℕ) :
    (applyBass kf params idx).angle = kf.angle := by
  unfold applyBass; cases params.lookup "bass" <;> rfl

theorem applyEnergy_angle (kf : AnimationKeyframe) (params : List (String × List ℚ)) (idx : ℕ) :
    (applyEnergy kf params idx).angle = kf.angle := by
  unfold applyEnergy; cases params.lookup "energy" <;> rfl

/-- C5: with bass value 1 the resulting zoom is the incoming zoom times 1.2; the
treble value v adds v * 45 to angle; with energy value 0.4 the resulting strength is
exactly 0.7; and when none of bass/treble/energy is present (whatever other feature
names are), every keyframe field is left unchanged. -/
theorem C5_audio_modulation (kf : AnimationKeyframe) (params : List (String × List ℚ))
    (idx : ℕ) :
    (∀ arr, params.lookup "bass" = some arr → arr.getD idx 0 = 1 →
        (apply_audio_reactivity kf params idx).zoom = kf.zoom * (6/5)) ∧
    (∀ arr v, params.lookup "treble" = some arr → arr.getD idx 0 = v →
        (apply_audio_reactivity kf params idx).angle = kf.angle + v * 45) ∧
    (∀ arr, params.lookup "energy" = some arr → arr.getD idx 0 = 2/5 →
        (apply_audio_reactivity kf params idx).strength = 7/10) ∧
    (params.lookup "bass" = none → params.lookup "treble" = none →
        params.lookup "energy" = none → apply_audio_reactivity kf params idx = kf) := by
  refine ⟨?_, ?_, ?_, ?_⟩
  · intro arr hb hv
    simp only [apply_audio_reactivity, applyEnergy_zoom, applyTreble_zoom, applyBass, hb, hv]
    ring_nf
  · intro arr v ht hv
    simp only [apply_audio_reactivity, applyEnergy_angle, applyTreble, ht, hv, applyBass_angle]
  · intro arr he hv
    simp only [apply_audio_reactivity, applyEnergy, he, hv]
    norm_num
  · intro hb ht he
    simp only [apply_audio_reactivity, applyEnergy, he, applyTreble, ht, applyBass, hb]

/-- Audio parameters for the C5 witness: bass 1, treble 3, energy 0.4 at frame 0. -/
def c5Params : List (String × List ℚ) := [("bass", [1]), ("treble", [3]), ("energy", [2/5])]

/-- Keyframe for the C5 witness. -/
def c5Kf : AnimationKeyframe := { frame := 0, prompt := "p", zoom := 2, angle := 1, strength := 1/4 }

/-- C5 witness: concrete modulation results, plus the no-op case for an empty
feature map. -/
theorem C5_witness :
    (apply_audio_reactivity c5Kf c5Params 0).zoom = c5Kf.zoom * (6/5) ∧
    (apply_audio_reactivity c5Kf c5Params 0).angle = c5Kf.angle + 3 * 45 ∧
    (apply_audio_reactivity c5Kf c5Params 0).strength = 7/10 ∧
    apply_audio_reactivity c5Kf [] 0 = c5Kf :=
  ⟨(C5_audio_modulation c5Kf c5Params 0).1 [1] (by decide) (by decide),
   (C5_audio_modulation c5Kf c5Params 0).2.1 [3] 3 (by decide) (by decide),
   (C5_audio_modulation c5Kf c5Params 0).2.2.1 [2/5] (by decide) (by decide),
   (C5_audio_modulation c5Kf [] 0).2.2.2 rfl rfl rfl⟩

/-- Images as operation traces.  Each image-processing call of the source adds one
node: `warped` is _apply_transforms (2D/3D geometric warp with mode and border),
`flowAligned` is _apply_optical_flow (current, previous), `synthesized` is the
external Stable-Diffusion oracle call conditioned on the warped image and keyframe,
`colorMatched` is _apply_color_coherence (current, reference, method), `blended` is
_blend_frames (current, previous, strength), and `frameLerp` is the pixelwise
linear blend of the frame-interpolation post-process. -/
inductive Img where
  | source : ℕ → Img
  | warped : Img → AnimationKeyframe → String → String → Img
  | flowAligned : Img → Img → Img
  | synthesized : Img → AnimationKeyframe → Img
  | colorMatched : Img → Img → String → Img
  | blended : Img → Img → ℚ → Img
  | frameLerp : Img → Img → ℚ → Img
  deriving Repr, DecidableEq

/-- dataclass GenerativeAnimationConfig of src/generative_animator.py, restricted to
the fields the per-frame loop reads, with the source's defaults.  The model-loading
fields (checkpoints, LoRA, ControlNet, sampler, steps, cfg) configure the external
oracle and do not influence the claims' control flow; `_prepare_controlnet_inputs`
returns an empty list unconditionally in the source. -/
structure GenerativeAnimationConfig where
  width : ℕ := 512
  height : ℕ := 512
  fps : ℕ := 24
  total_frames : ℕ := 120
  animation_mode : String := "3D"
  border : String := "replicate"
  strength_schedule : String := "0:(0.75)"
  color_coherence : String := "Match Frame 0 LAB"
  optical_flow_cadence : String := "None"
  diffusion_cadence : ℕ := 1
  temporal_strength : ℚ := 1/2
  temporal_layers : ℕ := 2
  use_optical_flow : Bool := true
  use_frame_interpolation : Bool := true
  interpolation_factor : ℕ := 2
  keyframes : List AnimationKeyframe := []
  deriving Repr, DecidableEq

/-- The geometric part of GenerativeAnimator._generate_frame: the previous image is
warped by _apply_transforms, then flow-aligned against previous_frames[-1] when
optical flow is enabled and the history is nonempty. -/
def warped_input (prev_image : Img) (keyframe : AnimationKeyframe)
    (config : GenerativeAnimationConfig) (previous_frames : List Img) : Img :=
  let w := Img.warped prev_image keyframe config.animation_mode config.border
  match previous_frames.getLast? with
  | some prev => if config.use_optical_flow then Img.flowAligned w prev else w
  | none => w

/-- GenerativeAnimator._generate_frame.  Returns the produced image together with a
flag recording whether the synthesis oracle was invoked during this call.  On
cadence frames (frame_idx % diffusion_cadence == 0) the oracle output is
color-matched against previous_frames[0] when color coherence is enabled and the
history is nonempty, then blended with previous_frames[-1] when temporal_strength is
positive and the history is nonempty; on all other frames the warped input is
returned as is. -/
def generate_frame (prev_image : Img) (frame_idx : ℕ) (keyframe : AnimationKeyframe)
    (config : GenerativeAnimationConfig) (previous_frames : List Img) : Img × Bool :=
  let warped_image := warped_input prev_image keyframe config previous_frames
  if frame_idx % config.diffusion_cadence = 0 then
    let output0 := Img.synthesized warped_image keyframe
    let output1 :=
      match previous_frames.head? with
      | some ref =>
        if config.color_coherence ≠ "None" then Img.colorMatched output0 ref config.color_coherence
        else output0
      | none => output0
    let output2 :=
      match previous_frames.getLast? with
      | some prev =>
        if 0 < config.temporal_strength then Img.blended output1 prev config.temporal_strength
        else output1
      | none => output1
    (output2, true)
  else
    (warped_image, false)

/-- C1: with diffusion_cadence at least 1, the per-frame step invokes the synthesis
oracle exactly on frames with frame_idx % diffusion_cadence == 0; on every other
frame the returned image is precisely the geometrically-warped (and, when optical
flow is enabled and history exists, flow-aligned) input — in particular no
color-coherence and no temporal-blending operation is applied to it. -/
theorem C1_cadence_gating (prev_image : Img) (frame_idx : ℕ) (keyframe : AnimationKeyframe)
    (config : GenerativeAnimationConfig) (previous_frames : List Img)
    (_hN : 1 ≤ config.diffusion_cadence) :
    ((generate_frame prev_image frame_idx keyframe config previous_frames).2 = true ↔
      frame_idx % config.diffusion_cadence = 0) ∧
    (frame_idx % config.diffusion_cadence ≠ 0 →
      (generate_frame prev_image frame_idx keyframe config previous_frames).1 =
        warped_input prev_image keyframe config previous_frames) := by
  rw [generate_frame]
  by_cases h : frame_idx % config.diffusion_cadence = 0
  · simp [h]
  · simp [h]

/-- Configuration for the C1 witness: cadence 3. -/
def c1Config : GenerativeAnimationConfig := { diffusion_cadence := 3 }

/-- C1 witness: at frame 4 with cadence 3 the oracle flag is false and the emitted
image is exactly the warped input; derived facts at frames 3 and 4 follow by
evaluation. -/
theorem C1_witness :
    (((generate_frame (Img.source 0) 4 default c1Config [Img.source 1]).2 = true ↔
        4 % c1Config.diffusion_cadence = 0) ∧
      (4 % c1Config.diffusion_cadence ≠ 0 →
        (generate_frame (Img.source 0) 4 default c1Config [Img.source 1]).1 =
          warped_input (Img.source 0) default c1Config [Img.source 1])) ∧
    (generate_frame (Img.source 0) 3 default c1Config [Img.source 1]).2 = true :=
  ⟨C1_cadence_gating (Img.source 0) 4 default c1Config [Img.source 1] (by decide), by decide⟩

/-- The pair loop of GenerativeAnimator._interpolate_frames, polymorphic in the
frame representation: for each consecutive pair (A, B) emit A followed by the
factor - 1 blends at alpha = j/factor, j = 1..factor-1. -/
def interpolate_segments (blend : α → α → ℚ → α) (factor : ℕ) : List α → List α
  | [] => []
  | [_] => []
  | a :: b :: rest =>
    (a :: (List.range (factor - 1)).map
        (fun j : ℕ => blend a b (((j + 1 : ℕ) : ℚ) / (factor : ℚ))))
      ++ interpolate_segments blend factor (b :: rest)

/-- GenerativeAnimator._interpolate_frames: the pair loop followed by appending the
last original frame.  On an empty input `frames[-1]` raises IndexError, which the
surrounding try/except turns into returning the input unchanged. -/
def interpolate_frames (blend : α → α → ℚ → α) (frames : List α) (factor : ℕ) : List α :=
  match frames.getLast? with
  | none => frames
  | some last => interpolate_segments blend factor frames ++ [last]

/-- The pixel arithmetic of _interpolate_frames on a frame modelled as a pixel
vector: curr * (1 - alpha) + next * alpha, pointwise (exact arithmetic; the uint8
storage cast is not modelled). -/
def pixel_lerp (a b : List ℚ) (alpha : ℚ) : List ℚ :=
  List.zipWith (fun x y => x * (1 - alpha) + y * alpha) a b

/-- State threaded by the per-frame loop of GenerativeAnimator.generate_animation:
the emitted frames, the bounded history self.previous_frames, the caller's
config.keyframes list (whose entries the loop can mutate through aliasing), and a
ghost trace of the arguments of every progress-callback invocation. -/
structure RunState where
  frames : List Img
  previous_frames : List Img
  keyframes : List AnimationKeyframe
  calls : List (ℕ × ℕ)
  deriving Repr, DecidableEq

/-- One iteration of the per-frame loop of GenerativeAnimator.generate_animation:
invoke the progress callback (an exception there is uncaught and aborts the run),
resolve the keyframe, apply audio reactivity when audio parameters exist (mutating
the aliased configuration keyframe in place), generate the frame from the seed image
(frame 0) or the last emitted frame, append it, and maintain the bounded history. -/
def run_frame_step (config : GenerativeAnimationConfig)
    (audio_params : List (String × List ℚ))
    (cb : Option (ℕ → ℕ → Except PyError Unit)) (init_image : Img)
    (st : RunState) (frame_idx : ℕ) : Except PyError RunState := do
  let calls ←
    match cb with
    | some f =>
      match f frame_idx config.total_frames with
      | .error e => .error e
      | .ok _ => .ok (st.calls ++ [(frame_idx, config.total_frames)])
    | none => .ok st.calls
  let resolved := get_keyframe_at_frame (frame_idx : Int) st.keyframes
  let keyframe :=
    if audio_params ≠ [] then apply_audio_reactivity resolved.1 audio_params frame_idx
    else resolved.1
  let keyframes' :=
    if audio_params ≠ [] then
      match resolved.2 with
      | some i => st.keyframes.set i keyframe
      | none => st.keyframes
    else st.keyframes
  let prev_image := if frame_idx = 0 then init_image else st.frames.getLastD init_image
  let frame := (generate_frame prev_image frame_idx keyframe config st.previous_frames).1
  let prevs := st.previous_frames ++ [frame]
  let prevs := if config.temporal_layers < prevs.length then prevs.tail else prevs
  .ok { frames := st.frames ++ [frame], previous_frames := prevs,
        keyframes := keyframes', calls := calls }

/-- The for loop of GenerativeAnimator.generate_animation over a list of frame
indices: an uncaught exception in a step stops the iteration and propagates. -/
def run_frames (config : GenerativeAnimationConfig)
    (audio_params : List (String × List ℚ))
    (cb : Option (ℕ → ℕ → Except PyError Unit)) (init_image : Img) :
    List ℕ → RunState → Except PyError RunState
  | [], st => .ok st
  | i :: rest, st =>
    match run_frame_step config audio_params cb init_image st i with
    | .error e => .error e
    | .ok st' => run_frames config audio_params cb init_image rest st'

/-- The per-frame loop of GenerativeAnimator.generate_animation over frame indices
0..total_frames-1, starting from empty frame and history lists and the caller's
keyframe list. -/
def run_animation_loop (init_image : Img) (config : GenerativeAnimationConfig)
    (audio_params : List (String × List ℚ))
    (cb : Option (ℕ → ℕ → Except PyError Unit)) : Except PyError RunState :=
  run_frames config audio_params cb init_image (List.range config.total_frames)
    { frames := [], previous_frames := [], keyframes := config.keyframes, calls := [] }

/-- GenerativeAnimator.generate_animation: the per-frame loop followed by the
frame-interpolation post-process when enabled with a factor above 1. -/
def generate_animation (init_image : Img) (config : GenerativeAnimationConfig)
    (audio_params : List (String × List ℚ))
    (cb : Option (ℕ → ℕ → Except PyError Unit)) : Except PyError (List Img) :=
  match run_animation_loop init_image config audio_params cb with
  | .error e => .error e
  | .ok st =>
    .ok (if config.use_frame_interpolation ∧ 1 < config.interpolation_factor then
          interpolate_frames Img.frameLerp st.frames config.interpolation_factor
        else st.frames)

/-- Configuration for the C4 failing input: two frames, one caller-supplied keyframe
at frame 0 with its constructed zoom of 1. -/
def c4Config : GenerativeAnimationConfig :=
  { total_frames := 2, keyframes := [{ frame := 0, prompt := "p" }] }

/-- C4 (code bug): the caller's configuration keyframe is mutated during the run.
With a single keyframe (zoom constructed as 1) and bass = 1 on both frames,
_get_keyframe_at_frame returns the configuration keyframe itself (the `return
before` alias) and _apply_audio_reactivity multiplies its zoom in place, so after
two frames the configuration keyframe's zoom is 1 * 1.2 * 1.2 = 36/25 — the
modulation compounds across frames instead of leaving the keyframe unchanged,
contradicting the code's own "Up to 20% zoom" comment and the spec's immutability
rule. -/
theorem C4_keyframe_mutation :
    ((c4Config.keyframes.getD 0 default).zoom = 1) ∧
    (run_animation_loop (Img.source 0) c4Config [("bass", [1, 1])] none).map
        (fun st => (st.keyframes.getD 0 default).zoom) = .ok (36/25) := by
  decide

/-- Configuration for the C9 counterexample and witness: a two-frame run. -/
def c9Config : GenerativeAnimationConfig := { total_frames := 2 }

/-- A progress callback that raises on every invocation. -/
def cbBoom : ℕ → ℕ → Except PyError Unit := fun _ _ => .error (.exception "boom")

/-- C9 counterexample: the progress callback is invoked without any exception
handling, so a callback that raises aborts the whole run — the loop stops and the
exception propagates out of generate_animation; callback failures are not
ignored. -/
theorem C9_counterexample :
    run_animation_loop (Img.source 0) c9Config [] (some cbBoom) = .error (.exception "boom") ∧
    generate_animation (Img.source 0) c9Config [] (some cbBoom) = .error (.exception "boom") := by
  decide

/-- When the callback returns normally, one loop step succeeds and records exactly
one invocation with arguments (frame index, total_frames). -/
theorem run_frame_step_ok (config : GenerativeAnimationConfig)
    (audio : List (String × List ℚ)) (init : Img) (f : ℕ → ℕ → Except PyError Unit)
    (hf : ∀ i j, f i j = .ok ()) (st : RunState) (n : ℕ) :
    ∃ st', run_frame_step config audio (some f) init st n = .ok st' ∧
      st'.calls = st.calls ++ [(n, config.total_frames)] := by
  unfold run_frame_step
  simp only [hf]
  exact ⟨_, rfl, rfl⟩

/-- Splitting the for loop over an appended index list. -/
theorem run_frames_append (config : GenerativeAnimationConfig)
    (audio : List (String × List ℚ)) (cb : Option (ℕ → ℕ → Except PyError Unit))
    (init : Img) :
    ∀ (l l' : List ℕ) (st : RunState),
      run_frames config audio cb init (l ++ l') st =
        match run_frames config audio cb init l st with
        | .error e => .error e
        | .ok st' => run_frames config audio cb init l' st'
  | [], _, _ => rfl
  | i :: rest, l', st => by
    rw [List.cons_append, run_frames, run_frames]
    cases run_frame_step config audio cb init st i with
    | error e => rfl
    | ok st2 => exact run_frames_append config audio cb init rest l' st2

/-- A never-failing callback makes the loop record exactly one call per frame, in
frame order, with arguments (frame index, total_frames). -/
theorem run_loop_calls (config : GenerativeAnimationConfig)
    (audio : List (String × List ℚ)) (init : Img) (f : ℕ → ℕ → Except PyError Unit)
    (hf : ∀ i j, f i j = .ok ()) :
    ∀ (n : ℕ) (st : RunState),
      ∃ st', run_frames config audio (some f) init (List.range n) st = .ok st' ∧
        st'.calls = st.calls ++ (List.range n).map (fun i => (i, config.total_frames)) := by
  intro n
  induction n with
  | zero => intro st; exact ⟨st, rfl, by simp⟩
  | succ n ih =>
    intro st
    obtain ⟨st', h1, h2⟩ := ih st
    obtain ⟨st'', h3, h4⟩ := run_frame_step_ok config audio init f hf st' n
    refine ⟨st'', ?_, ?_⟩
    · rw [List.range_succ, run_frames_append, h1]
      simp only [run_frames, h3]
    · rw [h4, h2, List.range_succ, List.map_append]
      simp

/-- C9 amended: the orchestrator invokes the progress callback exactly once per
frame, in order, with arguments (current_index, total_frames) — but a callback that
raises aborts the run (see the counterexample), it is not ignored.  For any callback
that never raises, the run completes and the recorded invocation trace is exactly
[(0, total), ..., (total-1, total)]. -/
theorem C9_amended (init : Img) (config : GenerativeAnimationConfig)
    (audio : List (String × List ℚ)) (f : ℕ → ℕ → Except PyError Unit)
    (hf : ∀ i j, f i j = .ok ()) :
    ∃ st, run_animation_loop init config audio (some f) = .ok st ∧
      st.calls = (List.range config.total_frames).map (fun i => (i, config.total_frames)) := by
  obtain ⟨st, h1, h2⟩ := run_loop_calls config audio init f hf config.total_frames
    { frames := [], previous_frames := [], keyframes := config.keyframes, calls := [] }
  exact ⟨st, h1, by simpa using h2⟩

-- (run_animation_loop unfolds to run_frames on List.range total_frames by rfl)

/-- A progress callback that always returns normally. -/
def cbOk : ℕ → ℕ → Except PyError Unit := fun _ _ => .ok ()

/-- C9 witness: for a concrete two-frame run with a well-behaved callback, the run
succeeds and the callback is invoked exactly with (0, 2) then (1, 2). -/
theorem C9_witness :
    (∃ st, run_animation_loop (Img.source 0) c9Config [] (some cbOk) = .ok st ∧
      st.calls = (List.range c9Config.total_frames).map (fun i => (i, c9Config.total_frames))) ∧
    (List.range c9Config.total_frames).map (fun i => (i, c9Config.total_frames)) = [(0, 2), (1, 2)] :=
  ⟨C9_amended (Img.source 0) c9Config [] cbOk (fun _ _ => rfl), by decide⟩

/-- Each consecutive pair contributes exactly `factor` frames to the pair loop's
output (the original frame plus factor - 1 inserted blends). -/
theorem interpolate_segments_length (blend : α → α → ℚ → α) (k : ℕ) (hk : 0 < k) :
    ∀ frames : List α, (interpolate_segments blend k frames).length = (frames.length - 1) * k
  | [] => by simp [interpolate_segments]
  | [_] => by simp [interpolate_segments]
  | a :: b :: rest => by
    rw [interpolate_segments, List.length_append,
      interpolate_segments_length blend k hk (b :: rest)]
    simp only [List.length_cons, List.length_map, List.length_range, Nat.add_sub_cancel,
      Nat.succ_sub_one, Nat.succ_mul]
    omega

/-- Position i * k + j of the pair loop's output: the original frame i at j = 0 and
the blend of frames i and i+1 at alpha = j/k for 0 < j < k. -/
theorem interpolate_segments_getD (blend : α → α → ℚ → α) (k : ℕ) (hk : 0 < k) (d : α) :
    ∀ (frames : List α) (i j : ℕ), i + 1 < frames.length → j < k →
      (interpolate_segments blend k frames).getD (i * k + j) d =
        if j = 0 then frames.getD i d
        else blend (frames.getD i d) (frames.getD (i + 1) d) ((j : ℚ) / (k : ℚ))
  | [], i, j, hi, _ => by simp at hi
  | [_], i, j, hi, _ => by simp at hi
  | a :: b :: rest, i, j, hi, hj => by
    rw [interpolate_segments]
    have hseg : (a :: (List.range (k - 1)).map
        (fun m : ℕ => blend a b (((m + 1 : ℕ) : ℚ) / (k : ℚ)))).length = k := by
      simp only [List.length_cons, List.length_map, List.length_range]
      omega
    cases i with
    | zero =>
      rw [Nat.zero_mul, Nat.zero_add,
        List.getD_append _ _ d j (by rw [hseg]; exact hj)]
      cases j with
      | zero => simp
      | succ m =>
        simp only [List.getD_cons_succ]
        rw [getD_map_range (fun j : ℕ => blend a b (((j + 1 : ℕ) : ℚ) / (k : ℚ))) d
          (k - 1) m (by omega)]
        simp only [List.getD_cons_zero, List.getD_cons_succ, Nat.succ_ne_zero, if_false]
    | succ i' =>
      have hsplit : (i' + 1) * k + j = k + (i' * k + j) := by ring
      rw [hsplit, List.getD_append_right _ _ d _ (by rw [hseg]; omega)]
      rw [hseg, Nat.add_sub_cancel_left]
      have hi' : i' + 1 < (b :: rest).length := by
        simp only [List.length_cons] at hi ⊢; omega
      rw [interpolate_segments_getD blend k hk d (b :: rest) i' j hi' hj]
      simp only [List.getD_cons_succ]

/-- C8: for at least two frames and factor k > 1, the upsampler's output has length
(n-1)*k + 1; position i*k carries original frame i unchanged and positions i*k+j
(0 < j < k) carry exactly the pixelwise blend A*(1-alpha) + B*alpha of the
surrounding originals at alpha = j/k (so exactly k-1 inserted frames between each
pair, in order); and the final output frame is the last original frame with no
trailing interpolation. -/
theorem C8_upsampling (frames : List (List ℚ)) (k : ℕ)
    (hn : 2 ≤ frames.length) (hk : 1 < k) :
    (interpolate_frames pixel_lerp frames k).length = (frames.length - 1) * k + 1 ∧
    (∀ i j, i + 1 < frames.length → j < k →
      (interpolate_frames pixel_lerp frames k).getD (i * k + j) [] =
        if j = 0 then frames.getD i []
        else pixel_lerp (frames.getD i []) (frames.getD (i + 1) []) ((j : ℚ) / (k : ℚ))) ∧
    (interpolate_frames pixel_lerp frames k).getD ((frames.length - 1) * k) [] =
      (frames.getLast?).getD [] := by
  obtain ⟨last, hlast⟩ : ∃ l, frames.getLast? = some l :=
    Option.isSome_iff_exists.mp (List.getLast?_isSome.mpr
      (by intro h; rw [h] at hn; simp at hn))
  rw [interpolate_frames, hlast]
  have hk0 : 0 < k := by omega
  have hlen := interpolate_segments_length pixel_lerp k hk0 frames
  refine ⟨?_, ?_, ?_⟩
  · rw [List.length_append, hlen]; simp
  · intro i j hi hj
    have hidx : i * k + j < (interpolate_segments pixel_lerp k frames).length := by
      rw [hlen]
      have h1 : i * k + j < (i + 1) * k := by
        have := Nat.add_lt_add_left hj (i * k)
        simpa [Nat.succ_mul] using this
      have h2 : (i + 1) * k ≤ (frames.length - 1) * k :=
        Nat.mul_le_mul_right k (by omega)
      omega
    rw [List.getD_append _ _ _ _ hidx]
    exact interpolate_segments_getD pixel_lerp k hk0 [] frames i j hi hj
  · rw [← hlen, List.getD_append_right _ _ _ _ (le_refl _)]
    simp

/-- C8 witness: with factor 2 between frames [0] and [2] exactly one frame [1] =
0.5*[0] + 0.5*[2] is inserted, the output is [[0],[1],[2]] of length (2-1)*2 + 1,
and the indexed characterization holds at this input. -/
theorem C8_witness :
    interpolate_frames pixel_lerp ([[0], [2]] : List (List ℚ)) 2 = [[0], [1], [2]] ∧
    ((interpolate_frames pixel_lerp ([[0], [2]] : List (List ℚ)) 2).length =
        (([[0], [2]] : List (List ℚ)).length - 1) * 2 + 1 ∧
      (∀ i j, i + 1 < ([[0], [2]] : List (List ℚ)).length → j < 2 →
        (interpolate_frames pixel_lerp ([[0], [2]] : List (List ℚ)) 2).getD (i * 2 + j) [] =
          if j = 0 then ([[0], [2]] : List (List ℚ)).getD i []
          else pixel_lerp (([[0], [2]] : List (List ℚ)).getD i [])
            (([[0], [2]] : List (List ℚ)).getD (i + 1) []) ((j : ℚ) / (2 : ℚ))) ∧
      (interpolate_frames pixel_lerp ([[0], [2]] : List (List ℚ)) 2).getD
          ((([[0], [2]] : List (List ℚ)).length - 1) * 2) [] =
        (([[0], [2]] : List (List ℚ)).getLast?).getD []) :=
  ⟨by decide, C8_upsampling [[0], [2]] 2 (by decide) (by decide)⟩

/-- Per-channel mean (numpy .mean()) over ℝ. -/
noncomputable def chanMean (xs : List ℝ) : ℝ := xs.sum / xs.length

/-- Per-channel population standard deviation (numpy .std()) over ℝ. -/
noncomputable def chanStd (xs : List ℝ) : ℝ :=
  Real.sqrt ((xs.map (fun x => (x - chanMean xs) ^ 2)).sum / xs.length)

/-- The per-channel body of GenerativeAnimator._apply_color_coherence, identical in
the LAB, HSV and RGB branches: when the current channel's standard deviation is
positive, rescale the centered channel by ref_std/cur_std and recenter to the
reference mean; otherwise pass the channel through unchanged.  (The cv2 color-space
conversions surrounding this loop are external collaborators; the uint8 storage
casts are not modelled.) -/
noncomputable def color_match_channel (cur ref : List ℝ) : List ℝ :=
  if 0 < chanStd cur then
    cur.map (fun x => (x - chanMean cur) * (chanStd ref / chanStd cur) + chanMean ref)
  else cur

/-- The `for i in range(3)` channel loop of the RGB branch of
_apply_color_coherence, with frames given as channel lists. -/
noncomputable def apply_color_coherence_rgb (cur ref : List (List ℝ)) : List (List ℝ) :=
  List.zipWith color_match_channel cur ref

/-- Sum of an affine image of a list. -/
theorem sum_map_affine (l : List ℝ) (c d : ℝ) :
    (l.map (fun x => x * c + d)).sum = l.sum * c + l.length * d := by
  induction l with
  | nil => simp
  | cons x xs ih =>
    simp only [List.map_cons, List.sum_cons, ih, List.length_cons]
    push_cast
    ring

/-- C7: for a nonempty current channel, if its standard deviation is positive the
matched channel is exactly (cur - cur_mean) * (ref_std/cur_std) + ref_mean pointwise
and its mean equals the reference channel's mean exactly (hence within any epsilon);
if the standard deviation is zero the channel passes through unchanged. -/
theorem C7_color_coherence (cur ref : List ℝ) (hne : cur ≠ []) :
    (0 < chanStd cur →
      color_match_channel cur ref =
        cur.map (fun x => (x - chanMean cur) * (chanStd ref / chanStd cur) + chanMean ref) ∧
      chanMean (color_match_channel cur ref) = chanMean ref) ∧
    (chanStd cur = 0 → color_match_channel cur ref = cur) := by
  have hn : (cur.length : ℝ) ≠ 0 := Nat.cast_ne_zero.mpr (by simpa using hne)
  constructor
  · intro h
    refine ⟨if_pos h, ?_⟩
    rw [color_match_channel, if_pos h]
    have hfun : (fun x : ℝ => (x - chanMean cur) * (chanStd ref / chanStd cur) + chanMean ref)
        = (fun x : ℝ => x * (chanStd ref / chanStd cur)
            + (chanMean ref - chanMean cur * (chanStd ref / chanStd cur))) := by
      funext x; ring
    rw [hfun]
    simp only [chanMean, List.length_map]
    rw [sum_map_affine]
    field_simp
    ring
  · intro h
    rw [color_match_channel, if_neg (by rw [h]; exact lt_irrefl 0)]

/-- C7 witness: the channel [0, 2] has mean 1 and standard deviation 1 > 0; matching
it against the reference channel [1, 3] yields a channel whose mean equals the
reference mean exactly. -/
theorem C7_witness :
    ([(0 : ℝ), 2] : List ℝ) ≠ [] ∧ 0 < chanStd [(0 : ℝ), 2] ∧
    chanMean (color_match_channel [(0 : ℝ), 2] [1, 3]) = chanMean [(1 : ℝ), 3] := by
  have hne : ([(0 : ℝ), 2] : List ℝ) ≠ [] := by simp
  have harg : (([(0 : ℝ), 2].map (fun x => (x - chanMean [(0 : ℝ), 2]) ^ 2)).sum /
      (([(0 : ℝ), 2].length : ℕ) : ℝ)) = 1 := by
    simp [chanMean]
    norm_num
  have hstd : 0 < chanStd [(0 : ℝ), 2] := by
    rw [chanStd, harg, Real.sqrt_one]
    norm_num
  exact ⟨hne, hstd, ((C7_color_coherence [0, 2] [1, 3] hne).1 hstd).2⟩
